import Mathlib

/-!
Verification development for the metadata-extraction workflow in
`app/backend/metadata_extraction.py` (the plain script variant, "v1") and
`app/backend/metadata_extraction_adls2.py` (the class-based ADLS2 variant).

The embedding models the pure data flow of both variants: poll responses are
values of `PollResponse`, a job's stream of status responses is a function
`Nat → PollResponse` (the response returned by the i-th status query), and the
polling loops are fuel-indexed recursions whose `running` outcome means the
loop has not yet terminated within the given fuel.
-/

/-! ## Data model: raw fields and parsed field records -/

/-- One raw field entry of the analysis result JSON
(`result["analyzeResult"]["documents"][0]["fields"][name]`).
`content` models `value.get("content", None)`; `boundingRegions` models the
region list after the `[{}]` default of
`value.get("boundingRegions", [{}])` (each element being that region's
`pageNumber`, absent → `none`); `confidence` models
`value.get("confidence", None)` with JSON numbers as rationals. -/
structure RawField where
  content : Option String
  boundingRegions : List (Option Nat)
  confidence : Option Rat
deriving DecidableEq

/-- A parsed field record as built by `parse_fields` /
`MetadataExtraction._parse_fields`. -/
structure FieldRecord where
  field_name : String
  content : Option String
  pageNumber : Option Nat
  confidence : Option Rat
deriving DecidableEq

/-- `parse_fields` (metadata_extraction.py lines 17-27, identical body in
`_parse_fields` of the ADLS2 variant): map each raw field dictionary entry to a
record with name, optional content, first bounding region's page number and
optional confidence. The Python dict is modelled as an association list in
insertion order. -/
def parse_fields (fields : List (String × RawField)) : List FieldRecord :=
  fields.map fun kv =>
    { field_name := kv.1
      content := kv.2.content
      pageNumber := kv.2.boundingRegions.headD none
      confidence := kv.2.confidence }

/-! ## Fixed-schema projection (`field_values`) -/

/-- The `field_values` dictionary built per document in
`process_files` (v1, lines 90-93) and `reupload_metadata` (ADLS2, lines
166-169). Each value models a Python `str | None`: the dict is initialised
with empty strings and an entry is overwritten with the record's `content`,
which may be `None`. -/
structure FieldValues where
  contracting_party : Option String
  valid_to : Option String
  signed_date : Option String
  signatory_tatra : Option String
deriving DecidableEq

/-- `field_values = {"contracting_party": "", "valid_to": "", "signed_date": "",
"signatory_tatra": ""}`. -/
def initialFieldValues : FieldValues := ⟨some "", some "", some "", some ""⟩

/-- One iteration of the projection loop:
`if field["field_name"] in field_values: field_values[name] = field["content"]`. -/
def applyField (fv : FieldValues) (f : FieldRecord) : FieldValues :=
  if f.field_name = "contracting_party" then { fv with contracting_party := f.content }
  else if f.field_name = "valid_to" then { fv with valid_to := f.content }
  else if f.field_name = "signed_date" then { fv with signed_date := f.content }
  else if f.field_name = "signatory_tatra" then { fv with signatory_tatra := f.content }
  else fv

/-- The full projection of a parsed-field list onto the fixed four-column
schema, as performed by the per-document loop in both variants. -/
def projectFields (parsed : List FieldRecord) : FieldValues :=
  parsed.foldl applyField initialFieldValues

/-- Python string interpolation of a `str | None` value: `None` renders as the
literal text `None`. Used by the v1 f-string row writer. -/
def pyStr : Option String → String
  | none => "None"
  | some s => s

/-- Wrap a rendered value in double quotes, as the v1 f-string does. -/
def quoteWrap (s : String) : String := "\"" ++ s ++ "\""

/-- The metadata row written by v1 `process_files` (lines 94-96):
`f.write(f"\"{file_name}\",\"{cp}\",\"{vt}\",\"{sd}\",\"{st}\"\n")`. -/
def serializeRowV1 (fileName : String) (fv : FieldValues) : String :=
  quoteWrap fileName ++ "," ++ quoteWrap (pyStr fv.contracting_party) ++ "," ++
    quoteWrap (pyStr fv.valid_to) ++ "," ++ quoteWrap (pyStr fv.signed_date) ++ "," ++
    quoteWrap (pyStr fv.signatory_tatra) ++ "\n"

/-! ## Poll responses and the two polling loops -/

/-- A status-query response (`response_json`). `status` models
`response_json.get("status")` (`none` = the key is absent), `errorInfo` models
`response_json.get("error", ...)`, and `fields` models
`response_json["analyzeResult"]["documents"][0]["fields"]` of a succeeded
response. -/
structure PollResponse where
  status : Option String
  errorInfo : Option String
  fields : List (String × RawField)
deriving DecidableEq

/-- Outcome of the v1 polling loop `get_analysis_results_async`
(metadata_extraction.py lines 49-59). `success resp waits` is a normal return
of `resp` after `waits` executions of `asyncio.sleep(5)`; `failure` is the
`ValueError` raised on status `failed`; `keyError` is the `KeyError` raised by
`response_json["status"]` when the key is absent; `running` means the
`while True` loop has not terminated within the given fuel. -/
inductive PollOutcome where
  | success (resp : PollResponse) (waits : Nat)
  | failure (msg : String)
  | keyError
  | running
deriving DecidableEq

/-- The fixed poll interval: `asyncio.sleep(5)`. -/
def pollIntervalSeconds : Nat := 5

/-- Fuel-indexed body of the v1 `while True` polling loop. `i` is the index of
the next status query in the response stream and `waits` the number of sleeps
performed so far. -/
def pollLoopV1 (responses : Nat → PollResponse) : Nat → Nat → Nat → PollOutcome
  | 0, _, _ => .running
  | fuel + 1, i, waits =>
    match (responses i).status with
    | none => .keyError
    | some s =>
      if s = "succeeded" then .success (responses i) waits
      else if s = "failed" then
        .failure ("Azure Document Intelligence analysis failed: " ++
          ((responses i).errorInfo.getD "Unknown error"))
      else pollLoopV1 responses fuel (i + 1) (waits + 1)

/-- `get_analysis_results_async` of metadata_extraction.py, started at the
first response with no sleeps performed. -/
def get_analysis_results (responses : Nat → PollResponse) (fuel : Nat) : PollOutcome :=
  pollLoopV1 responses fuel 0 0

/-- Outcome of the ADLS2 coroutine `_analyze_document_async`
(metadata_extraction_adls2.py lines 78-110). `returned v` is a normal
coroutine return of value `v`; note that falling off the bounded retry loop
returns `None`, modelled as `returned none`. `loggerTypeError` models the
`TypeError` raised on the succeeded path by line 103,
`self.logger(f"File: ... was successfully extracted.")`: `self.logger` is a
`logging.Logger` instance (line 37), which is not callable, so the `return` on
line 104 is unreachable. `analysisError` is the `ValueError` raised on status
`failed`. -/
inductive DocOutcome where
  | returned (v : Option (String × List FieldRecord))
  | loggerTypeError (fileName : String)
  | analysisError (msg : String)
deriving DecidableEq

/-- `max_retries = 12` (metadata_extraction_adls2.py line 83). -/
def maxRetries : Nat := 12

/-- The `for _ in range(max_retries)` polling loop of
`_analyze_document_async` (lines 94-110), with `k` the number of loop
iterations remaining and `i` the index of the next status query. A missing
`status` key sleeps and retries (lines 98-100); any other non-terminal status
sleeps and retries (line 110); exhausting the range falls off the loop and
returns `None`. -/
def analyzeLoop (fileName : String) (responses : Nat → PollResponse) :
    Nat → Nat → DocOutcome
  | 0, _ => .returned none
  | k + 1, i =>
    match (responses i).status with
    | none => analyzeLoop fileName responses k (i + 1)
    | some s =>
      if s = "succeeded" then .loggerTypeError fileName
      else if s = "failed" then
        .analysisError ("Azure Document Intelligence analysis failed: " ++
          ((responses i).errorInfo.getD "Unknown error"))
      else analyzeLoop fileName responses k (i + 1)

/-- `_analyze_document_async`, polling part, started at the first response
with the full retry budget. -/
def analyze_document (fileName : String) (responses : Nat → PollResponse) : DocOutcome :=
  analyzeLoop fileName responses maxRetries 0

/-! ## Concrete response streams used in the theorems -/

/-- A job that never reaches a terminal status: every poll reports
`status = "running"`. -/
def allPendingStream : Nat → PollResponse := fun _ => ⟨some "running", none, []⟩

/-- A job whose every status response is missing the `status` field. -/
def noStatusStream : Nat → PollResponse := fun _ => ⟨none, none, []⟩

/-- A job that reports `failed` with error detail `boom` on the first poll. -/
def failStream : Nat → PollResponse := fun _ => ⟨some "failed", some "boom", []⟩

/-- A job that reports `succeeded` on the first poll. -/
def succStream : Nat → PollResponse := fun _ => ⟨some "succeeded", none, []⟩

/-- A job whose observed status sequence is pending, pending, succeeded. -/
def ppsStream : Nat → PollResponse := fun i =>
  if i < 2 then ⟨some "running", none, []⟩ else ⟨some "succeeded", none, []⟩

lemma pollLoopV1_allPending (fuel i waits : Nat) :
    pollLoopV1 allPendingStream fuel i waits = .running := by
  induction fuel generalizing i waits with
  | zero => rfl
  | succ n ih => simpa [pollLoopV1, allPendingStream] using ih (i + 1) (waits + 1)

/-- Claim C1: the spec requires the poll-until-done operation to perform at
most a bounded number of status-query attempts and to fail with
`PollTimeoutError` on exhaustion. The code violates this: the v1 loop polls
indefinitely on a never-terminal stream (it is still `running` after any
amount of fuel), and the ADLS2 loop stops after 12 attempts but returns `None`
silently rather than raising an error. -/
theorem C1_poll_budget_code_bug :
    (∀ fuel, get_analysis_results allPendingStream fuel = .running) ∧
    analyze_document "contract.pdf" allPendingStream = .returned none := by
  refine ⟨fun fuel => pollLoopV1_allPending fuel 0 0, ?_⟩
  decide

/-- Claim C8 counterexample: the claim says a poll response missing the status
field causes a wait-and-retry and never an error, but the v1 poller
(`get_analysis_results_async`, cited by the claim) raises `KeyError` on
`response_json["status"]` for such a response instead of retrying. -/
theorem C8_counterexample :
    get_analysis_results noStatusStream 12 = .keyError ∧
    PollOutcome.keyError ≠ .success ⟨none, none, []⟩ 0 := by
  decide

/-- Claim C8, amended: a response carrying a present non-terminal status makes
both polling loops wait the fixed interval and retry; a response missing the
status field makes the bounded ADLS2 loop wait and retry, but makes the v1
loop raise `KeyError`. -/
theorem C8_amended (r q : Nat → PollResponse) (i j fuel waits k : Nat)
    (fn : String) (s : String)
    (h1 : (r i).status = some s) (h2 : s ≠ "succeeded") (h3 : s ≠ "failed")
    (h4 : (q j).status = none) :
    pollLoopV1 r (fuel + 1) i waits = pollLoopV1 r fuel (i + 1) (waits + 1) ∧
    analyzeLoop fn r (k + 1) i = analyzeLoop fn r k (i + 1) ∧
    analyzeLoop fn q (k + 1) j = analyzeLoop fn q k (j + 1) ∧
    pollLoopV1 q (fuel + 1) j waits = .keyError := by
  refine ⟨?_, ?_, ?_, ?_⟩
  · simp [pollLoopV1, h1, h2, h3]
  · simp [analyzeLoop, h1, h2, h3]
  · simp [analyzeLoop, h4]
  · simp [pollLoopV1, h4]

/-- Witness for C8_amended at concrete inputs: the pending stream and the
missing-status stream. -/
theorem C8_amended_witness :
    pollLoopV1 allPendingStream 1 0 0 = pollLoopV1 allPendingStream 0 1 1 ∧
    analyzeLoop "a.pdf" allPendingStream 1 0 = analyzeLoop "a.pdf" allPendingStream 0 1 ∧
    analyzeLoop "a.pdf" noStatusStream 1 0 = analyzeLoop "a.pdf" noStatusStream 0 1 ∧
    pollLoopV1 noStatusStream 1 0 0 = .keyError :=
  C8_amended allPendingStream noStatusStream 0 0 0 0 0 "a.pdf" "running"
    (by decide) (by decide) (by decide) (by decide)

/-- Claim C9: a job whose observed status sequence is pending, pending,
succeeded yields the succeeded response payload after exactly 2 waits of the
fixed 5-second interval. -/
theorem C9_two_waits (r : Nat → PollResponse) (s0 s1 : String) (fuel : Nat)
    (h0 : (r 0).status = some s0) (h0a : s0 ≠ "succeeded") (h0b : s0 ≠ "failed")
    (h1 : (r 1).status = some s1) (h1a : s1 ≠ "succeeded") (h1b : s1 ≠ "failed")
    (h2 : (r 2).status = some "succeeded") :
    get_analysis_results r (fuel + 3) = .success (r 2) 2 ∧
    2 * pollIntervalSeconds = 10 := by
  refine ⟨?_, rfl⟩
  show pollLoopV1 r (fuel + 3) 0 0 = .success (r 2) 2
  rw [show fuel + 3 = (fuel + 2) + 1 from rfl, pollLoopV1]
  simp only [h0, h0a, h0b, if_false]
  rw [show fuel + 2 = (fuel + 1) + 1 from rfl, pollLoopV1]
  simp only [h1, h1a, h1b, if_false]
  rw [pollLoopV1]
  simp [h2]

/-- Witness for C9_two_waits at the concrete pending-pending-succeeded
stream. -/
theorem C9_two_waits_witness :
    get_analysis_results ppsStream 3 = .success (ppsStream 2) 2 ∧
    2 * pollIntervalSeconds = 10 :=
  C9_two_waits ppsStream "running" "running" 0 (by decide) (by decide)
    (by decide) (by decide) (by decide) (by decide) (by decide)

/-! ## Claim C3: fixed-schema defaults -/

lemma applyField_signed_date_eq (fv : FieldValues) (f : FieldRecord)
    (h : f.field_name ≠ "signed_date") :
    (applyField fv f).signed_date = fv.signed_date := by
  unfold applyField
  split_ifs <;> simp_all

lemma applyField_contracting_party_eq (fv : FieldValues) (f : FieldRecord)
    (h : f.field_name ≠ "contracting_party") :
    (applyField fv f).contracting_party = fv.contracting_party := by
  unfold applyField
  split_ifs <;> simp_all

lemma applyField_valid_to_eq (fv : FieldValues) (f : FieldRecord)
    (h : f.field_name ≠ "valid_to") :
    (applyField fv f).valid_to = fv.valid_to := by
  unfold applyField
  split_ifs <;> simp_all

lemma applyField_signatory_tatra_eq (fv : FieldValues) (f : FieldRecord)
    (h : f.field_name ≠ "signatory_tatra") :
    (applyField fv f).signatory_tatra = fv.signatory_tatra := by
  unfold applyField
  split_ifs <;> simp_all

lemma applyField_signed_date_set (fv : FieldValues) (f : FieldRecord)
    (h : f.field_name = "signed_date") :
    (applyField fv f).signed_date = f.content := by
  unfold applyField
  rw [h]
  simp

lemma foldl_signed_date_eq (l : List FieldRecord) (fv : FieldValues)
    (h : ∀ f ∈ l, f.field_name ≠ "signed_date") :
    (l.foldl applyField fv).signed_date = fv.signed_date := by
  induction l generalizing fv with
  | nil => rfl
  | cons f l ih =>
    rw [List.foldl_cons, ih _ (fun g hg => h g (List.mem_cons_of_mem f hg)),
      applyField_signed_date_eq _ _ (h f (List.mem_cons_self f l))]

lemma foldl_contracting_party_eq (l : List FieldRecord) (fv : FieldValues)
    (h : ∀ f ∈ l, f.field_name ≠ "contracting_party") :
    (l.foldl applyField fv).contracting_party = fv.contracting_party := by
  induction l generalizing fv with
  | nil => rfl
  | cons f l ih =>
    rw [List.foldl_cons, ih _ (fun g hg => h g (List.mem_cons_of_mem f hg)),
      applyField_contracting_party_eq _ _ (h f (List.mem_cons_self f l))]

lemma foldl_valid_to_eq (l : List FieldRecord) (fv : FieldValues)
    (h : ∀ f ∈ l, f.field_name ≠ "valid_to") :
    (l.foldl applyField fv).valid_to = fv.valid_to := by
  induction l generalizing fv with
  | nil => rfl
  | cons f l ih =>
    rw [List.foldl_cons, ih _ (fun g hg => h g (List.mem_cons_of_mem f hg)),
      applyField_valid_to_eq _ _ (h f (List.mem_cons_self f l))]

lemma foldl_signatory_tatra_eq (l : List FieldRecord) (fv : FieldValues)
    (h : ∀ f ∈ l, f.field_name ≠ "signatory_tatra") :
    (l.foldl applyField fv).signatory_tatra = fv.signatory_tatra := by
  induction l generalizing fv with
  | nil => rfl
  | cons f l ih =>
    rw [List.foldl_cons, ih _ (fun g hg => h g (List.mem_cons_of_mem f hg)),
      applyField_signatory_tatra_eq _ _ (h f (List.mem_cons_self f l))]

lemma parse_fields_names (fields : List (String × RawField)) (f : FieldRecord)
    (hf : f ∈ parse_fields fields) : ∃ kv ∈ fields, kv.1 = f.field_name := by
  unfold parse_fields at hf
  rcases List.mem_map.mp hf with ⟨kv, hkv, rfl⟩
  exact ⟨kv, hkv, rfl⟩

/-- The raw field entry used in the C3 counterexample: a `signed_date` entry
that is present in the mapping but has no `content` attribute. -/
def contentlessEntry : RawField := ⟨none, [], none⟩

/-- Claim C3 counterexample: for the raw field mapping containing a
`signed_date` entry whose `content` attribute is absent, the projected row
holds `None` (null) for `signed_date`, not the empty string; and the v1
serialized output renders it as the literal text `None`. -/
theorem C3_counterexample :
    (projectFields (parse_fields [("signed_date", contentlessEntry)])).signed_date = none ∧
    (projectFields (parse_fields [("signed_date", contentlessEntry)])).signed_date ≠ some "" ∧
    serializeRowV1 "contract.pdf"
        (projectFields (parse_fields [("signed_date", contentlessEntry)])) =
      "\"contract.pdf\",\"\",\"\",\"None\",\"\"\n" := by
  refine ⟨rfl, by decide, rfl⟩

/-- Claim C3, amended: a schema field with no entry at all in the raw mapping
projects to the empty string (never null); but a field entry that is present
while its `content` attribute is absent projects to null (`None`), which the
ADLS2 `csv.writer` serializes as an empty cell while the v1 f-string writer
renders the literal text `None`. -/
theorem C3_amended (fields pre post : List (String × RawField)) (rf : RawField)
    (h1 : ∀ kv ∈ fields, kv.1 ≠ "contracting_party")
    (h2 : ∀ kv ∈ fields, kv.1 ≠ "valid_to")
    (h3 : ∀ kv ∈ fields, kv.1 ≠ "signed_date")
    (h4 : ∀ kv ∈ fields, kv.1 ≠ "signatory_tatra")
    (h5 : rf.content = none)
    (h6 : ∀ kv ∈ post, kv.1 ≠ "signed_date") :
    projectFields (parse_fields fields) = ⟨some "", some "", some "", some ""⟩ ∧
    (projectFields (parse_fields (pre ++ ("signed_date", rf) :: post))).signed_date = none ∧
    pyStr none = "None" := by
  refine ⟨?_, ?_, rfl⟩
  · have hname : ∀ n, (∀ kv ∈ fields, kv.1 ≠ n) →
        ∀ f ∈ parse_fields fields, f.field_name ≠ n := by
      intro n hn f hf
      rcases parse_fields_names fields f hf with ⟨kv, hkv, heq⟩
      rw [← heq]
      exact hn kv hkv
    unfold projectFields
    have e1 := foldl_contracting_party_eq _ initialFieldValues (hname _ h1)
    have e2 := foldl_valid_to_eq _ initialFieldValues (hname _ h2)
    have e3 := foldl_signed_date_eq _ initialFieldValues (hname _ h3)
    have e4 := foldl_signatory_tatra_eq _ initialFieldValues (hname _ h4)
    cases hfv : (parse_fields fields).foldl applyField initialFieldValues
    rw [hfv] at e1 e2 e3 e4
    simpa [initialFieldValues] using ⟨e1, e2, e3, e4⟩
  · unfold projectFields
    rw [parse_fields, List.map_append, List.map_cons, List.foldl_append,
      List.foldl_cons]
    rw [foldl_signed_date_eq _ _ ?_ , applyField_signed_date_set _ _ rfl]
    · exact h5
    · intro f hf
      rcases parse_fields_names post f hf with ⟨kv, hkv, heq⟩
      rw [← heq]
      exact h6 kv hkv

/-- Witness for C3_amended: a mapping containing only an unrelated field name,
plus a lone contentless `signed_date` entry. -/
theorem C3_amended_witness :
    projectFields (parse_fields [("other_field", ⟨some "x", [some 1], none⟩)]) =
      ⟨some "", some "", some "", some ""⟩ ∧
    (projectFields (parse_fields ([] ++ ("signed_date", contentlessEntry) :: []))).signed_date
      = none ∧
    pyStr none = "None" :=
  C3_amended [("other_field", ⟨some "x", [some 1], none⟩)] [] [] contentlessEntry
    (by decide) (by decide) (by decide) (by decide) (by decide) (by decide)

/-! ## Claim C2: batch processing of several files -/

/-- The v1 `asyncio.gather` over the per-file polling tasks
(metadata_extraction.py lines 76-79): a task that raises propagates its
exception out of `gather`, aborting the whole batch; `none` means some task is
still running (fuel exhausted). Temporal completion order is abstracted to
list order. -/
def gather_results : List (String × PollOutcome) →
    Option (Except String (List (String × PollResponse)))
  | [] => some (.ok [])
  | (n, .success r _) :: rest => (gather_results rest).map (·.map ((n, r) :: ·))
  | (_, .failure m) :: _ => some (.error m)
  | (_, .keyError) :: _ => some (.error "KeyError: status")
  | (_, .running) :: _ => none

/-- v1 `process_files` (lines 62-85), polling and collection part: poll every
file's job via `get_analysis_results_async`, gather the results, then build
the `output` mapping `file_name -> parse_fields(fields)`. An exception from
any single task aborts the whole batch and no mapping is produced. -/
def process_files (files : List (String × (Nat → PollResponse))) (fuel : Nat) :
    Option (Except String (List (String × List FieldRecord))) :=
  (gather_results (files.map fun f => (f.1, get_analysis_results f.2 fuel))).map
    (·.map (·.map fun nr => (nr.1, parse_fields nr.2.fields)))

/-- Log entries emitted through `self.logger` by the ADLS2 variant. Distinct
constructors model the distinct log call sites: `docError` is
`logger.error("Chyba při analýze dokumentu: ...")` in `run_extraction`,
`storageError` is `logger.error("Chyba při ukládání nebo nahrávání metadat:
...")` in `reupload_metadata`, `uploaded` the upload-confirmation info line,
`noMetadata` the `"No metadata"` info line, `extractionOk` the
`"Metadata extraction run successfully."` info line and `startInfo` the
opening info line of `run`. -/
inductive LogEntry where
  | startInfo
  | docError (msg : String)
  | extractionOk
  | noMetadata
  | uploaded
  | storageError (msg : String)
  | runError (msg : String)
deriving DecidableEq

/-- The exception message raised by an ADLS2 per-file coroutine, if any. -/
def docOutcomeMsg : DocOutcome → Option String
  | .returned _ => none
  | .loggerTypeError _ => some "TypeError: Logger object is not callable"
  | .analysisError m => some m

/-- ADLS2 `run_extraction` (lines 139-150), collection part: drain the
per-file outcomes; a normally returned non-`None` result is added to
`result_collection`, a returned `None` is skipped, and an exception is caught
and logged without aborting the other files. `as_completed` order is
abstracted to task order. Returns the final `self.metadata` mapping and the
error log. -/
def run_extraction (outcomes : List DocOutcome) :
    List (String × List FieldRecord) × List LogEntry :=
  (outcomes.filterMap fun o =>
      match o with
      | .returned (some r) => some r
      | _ => none,
   outcomes.filterMap fun o =>
      (docOutcomeMsg o).map fun m => LogEntry.docError ("Chyba při analýze dokumentu: " ++ m))

/-- Claim C2: the spec requires that in a batch with one failing and one
succeeding file, the batch result keeps the successful file's metadata next to
a tagged error for the failed one. The code violates this twice over: v1's
`process_files` propagates the failed file's `ValueError` out of
`asyncio.gather`, aborting the whole batch with no mapping at all; and the
ADLS2 `run_extraction` isolates the failure but loses the succeeded file too,
because the succeeded path of `_analyze_document_async` raises `TypeError`
(line 103 calls the non-callable `self.logger`), so the collection stays
empty. -/
theorem C2_partial_failure_code_bug :
    process_files [("bad.pdf", failStream), ("good.pdf", succStream)] 1 =
      some (.error "Azure Document Intelligence analysis failed: boom") ∧
    run_extraction
        [analyze_document "bad.pdf" failStream, analyze_document "good.pdf" succStream] =
      ([],
       [.docError
          ("Chyba při analýze dokumentu: Azure Document Intelligence analysis failed: boom"),
        .docError "Chyba při analýze dokumentu: TypeError: Logger object is not callable"]) := by
  refine ⟨rfl, by decide⟩

/-! ## Claims C4 and C5: persist step, run-level reporting and no-op runs -/

/-- Result of ADLS2 `reupload_metadata` (lines 152-198): the log it emits and
whether `blob_manager.upload_blob` was reached. With empty metadata it returns
at once (lines 154-156) without touching storage; otherwise the artifact is
written and the upload attempted, and any exception of the `try` block is
caught and logged with the storage-specific message (lines 197-198). The
upload attempt's result is supplied as an `Except` input; local file writes
are not a failure mode modelled here. -/
structure ReuploadResult where
  log : List LogEntry
  uploadCalled : Bool
deriving DecidableEq

/-- ADLS2 `reupload_metadata`. -/
def reupload_metadata (metadata : List (String × List FieldRecord))
    (upload : Except String Unit) : ReuploadResult :=
  if metadata.isEmpty then ⟨[.noMetadata], false⟩
  else
    match upload with
    | .ok _ => ⟨[.uploaded], true⟩
    | .error e =>
        ⟨[.storageError ("Chyba při ukládání nebo nahrávání metadat: " ++ e)], true⟩

/-- ADLS2 `run` (lines 200-209): start info line, extraction (whose per-file
errors are already caught inside `run_extraction`), the unconditional
extraction-success info line, then the persist step. -/
def runAll (outcomes : List DocOutcome) (upload : Except String Unit) : List LogEntry :=
  let ext := run_extraction outcomes
  LogEntry.startInfo :: ext.2 ++ [LogEntry.extractionOk] ++
    (reupload_metadata ext.1 upload).log

lemma run_extraction_log_docError (outcomes : List DocOutcome) (e : LogEntry)
    (he : e ∈ (run_extraction outcomes).2) : ∃ m, e = LogEntry.docError m := by
  unfold run_extraction at he
  simp only [List.mem_filterMap] at he
  rcases he with ⟨o, _, ho⟩
  rcases Option.map_eq_some'.mp ho with ⟨m, _, rfl⟩
  exact ⟨_, rfl⟩

/-- Claim C4: when the final persist step fails, the run's reporting channel
(the logger) carries the storage-level failure: the run log contains the
storage error entry, contains no upload-success entry, and the per-document
error log of the extraction phase never contains a storage error entry, so the
storage failure is reported distinctly from per-document errors and is not
swallowed into an apparent success. -/
theorem C4_storage_failure_reported (outcomes : List DocOutcome) (e : String)
    (h : (run_extraction outcomes).1 ≠ []) :
    LogEntry.storageError ("Chyba při ukládání nebo nahrávání metadat: " ++ e) ∈
      runAll outcomes (.error e) ∧
    LogEntry.uploaded ∉ runAll outcomes (.error e) ∧
    (∀ m, LogEntry.storageError m ∉ (run_extraction outcomes).2) := by
  have hne : (run_extraction outcomes).1.isEmpty = false :=
    List.isEmpty_eq_false.mpr h
  refine ⟨?_, ?_, ?_⟩
  · unfold runAll reupload_metadata
    simp [hne]
  · intro hmem
    unfold runAll reupload_metadata at hmem
    simp [hne] at hmem
    rcases run_extraction_log_docError outcomes _ hmem with ⟨m, hm⟩
    exact LogEntry.noConfusion hm
  · intro m hm
    rcases run_extraction_log_docError outcomes _ hm with ⟨m2, hm2⟩
    exact LogEntry.noConfusion hm2

/-- Witness for C4 at a batch whose single outcome is a normally returned
record, with a failing upload. -/
theorem C4_storage_failure_reported_witness :
    LogEntry.storageError ("Chyba při ukládání nebo nahrávání metadat: " ++ "reset") ∈
      runAll [.returned (some ("a.pdf", []))] (.error "reset") ∧
    LogEntry.uploaded ∉ runAll [.returned (some ("a.pdf", []))] (.error "reset") ∧
    (∀ m, LogEntry.storageError m ∉
      (run_extraction [.returned (some ("a.pdf", []))]).2) :=
  C4_storage_failure_reported [.returned (some ("a.pdf", []))] "reset" (by decide)

/-- Python `str.endswith`, modelled as a character-list suffix test. -/
def endswith (s suffix : String) : Bool := suffix.data.isSuffixOf s.data

/-- The core of `check_and_get_new_files` (metadata_extraction.py lines
115-120): keep the directory entries ending in `.pdf` and subtract the
processed-file index. -/
def selectNewFiles (allFiles processed : Finset String) : Finset String :=
  (allFiles.filter fun f => endswith f ".pdf" = true) \ processed

/-- The `__main__` block of metadata_extraction.py (lines 130-142): when the
new-file list is empty, `process_files` is never called, so no analysis
submissions happen; otherwise one document is submitted per new file. Returns
the number of submissions performed. -/
def mainSubmissionCount (allFiles processed : Finset String) : Nat :=
  let newFiles := selectNewFiles allFiles processed
  if newFiles = ∅ then 0 else newFiles.card

/-- Claim C5: when every `.pdf` source file is already in the processed index
— in particular on a second run with no files added — the new-file set is
empty, the batch performs zero submissions, and the persist step with zero
accumulated records is a no-op that never calls the storage collaborator. -/
theorem C5_no_new_files_noop (allFiles processed : Finset String)
    (upload : Except String Unit)
    (hsub : (allFiles.filter fun f => endswith f ".pdf" = true) ⊆ processed) :
    selectNewFiles allFiles processed = ∅ ∧
    mainSubmissionCount allFiles processed = 0 ∧
    (reupload_metadata [] upload).uploadCalled = false ∧
    (reupload_metadata [] upload).log = [.noMetadata] := by
  have hempty : selectNewFiles allFiles processed = ∅ :=
    Finset.sdiff_eq_empty_iff_subset.mpr hsub
  refine ⟨hempty, ?_, rfl, rfl⟩
  unfold mainSubmissionCount
  simp [hempty]

/-- Witness for C5 at a concrete one-file state already processed. -/
theorem C5_no_new_files_noop_witness :
    selectNewFiles {"a.pdf"} {"a.pdf"} = ∅ ∧
    mainSubmissionCount {"a.pdf"} {"a.pdf"} = 0 ∧
    (reupload_metadata [] (.ok ())).uploadCalled = false ∧
    (reupload_metadata [] (.ok ())).log = [.noMetadata] :=
  C5_no_new_files_noop {"a.pdf"} {"a.pdf"} (.ok ()) (by decide)

/-! ## Claims C6, C7, C10: artifact serialization, loading and new-file selection

The ADLS2 `reupload_metadata` (lines 158-185) writes the metadata to a CSV
file via `csv.writer` (default dialect: delimiter `,`, minimal quoting, quote
char doubled inside quoted fields, `\r\n` row terminator, `None` written as an
empty cell), then re-reads that CSV with `csv.reader` and writes a text
artifact consisting of a fixed instructional header followed by each parsed
row re-joined with plain commas (which strips all CSV quoting). The v1
`check_and_get_new_files` (lines 100-113) loads the artifact by skipping the
first 3 lines and feeding each remaining line to a `csv.reader`, taking
`row[0]` of every produced row. -/

/-- Characters the default `csv.writer` dialect must quote: delimiter, quote
char and the line-terminator characters. -/
def csvSpecial (c : Char) : Bool := c = ',' || c = '"' || c = '\n' || c = '\r'

/-- Double every quote char, as `csv.writer` does inside a quoted field. -/
def escapeQuotes : List Char → List Char
  | [] => []
  | c :: cs => if c = '"' then '"' :: '"' :: escapeQuotes cs else c :: escapeQuotes cs

/-- Minimal quoting: a field is quoted iff it contains a special character. -/
def needsQuoting (s : String) : Bool := s.data.any csvSpecial

/-- One cell as written by `csv.writer`: `None` becomes an empty cell, a
string is quoted only when needed. -/
def csvField (v : Option String) : String :=
  match v with
  | none => ""
  | some s => if needsQuoting s then "\"" ++ String.mk (escapeQuotes s.data) ++ "\"" else s

/-- Python `",".join(...)`. -/
def commaJoin : List String → String
  | [] => ""
  | [f] => f
  | f :: g :: fs => f ++ "," ++ commaJoin (g :: fs)

/-- One row as written by `csv.writer.writerow` (default `\r\n` terminator). -/
def csvRowText (cells : List (Option String)) : String :=
  commaJoin (cells.map csvField) ++ "\r\n"

/-- The intermediate CSV file: rows written in sequence. -/
def csvFileText : List (List (Option String)) → String
  | [] => ""
  | row :: rows => csvRowText row ++ csvFileText rows

/-- One step of the `csv.reader` state machine (default dialect, non-strict).
Arguments: remaining input, in-quoted-field flag, current-field-was-quoted
flag, current field accumulator (reversed), current record accumulator
(reversed). A record terminator on a line with nothing pending yields the
empty record (Python's blank-line behaviour, the source of `row[0]`
IndexErrors); end of input with nothing pending yields no record. -/
def csvScanAux : List Char → Bool → Bool → List Char → List String → List (List String)
  | [], inQ, wasQ, field, record =>
    if field = [] ∧ record = [] ∧ wasQ = false ∧ inQ = false then []
    else [(String.mk field.reverse :: record).reverse]
  | '"' :: '"' :: rest2, true, wasQ, field, record =>
    csvScanAux rest2 true wasQ ('"' :: field) record
  | '"' :: rest, true, wasQ, field, record => csvScanAux rest false wasQ field record
  | c :: rest, true, wasQ, field, record => csvScanAux rest true wasQ (c :: field) record
  | ',' :: rest, false, _, field, record =>
    csvScanAux rest false false [] (String.mk field.reverse :: record)
  | '\r' :: '\n' :: rest2, false, wasQ, field, record =>
    (if field = [] ∧ record = [] ∧ wasQ = false then []
     else (String.mk field.reverse :: record).reverse) ::
      csvScanAux rest2 false false [] []
  | '\r' :: rest, false, wasQ, field, record =>
    (if field = [] ∧ record = [] ∧ wasQ = false then []
     else (String.mk field.reverse :: record).reverse) ::
      csvScanAux rest false false [] []
  | '\n' :: rest, false, wasQ, field, record =>
    (if field = [] ∧ record = [] ∧ wasQ = false then []
     else (String.mk field.reverse :: record).reverse) ::
      csvScanAux rest false false [] []
  | '"' :: rest, false, wasQ, field, record =>
    if field = [] ∧ wasQ = false then csvScanAux rest true true field record
    else csvScanAux rest false wasQ ('"' :: field) record
  | c :: rest, false, wasQ, field, record => csvScanAux rest false wasQ (c :: field) record

/-- `csv.reader` over a whole input, producing the list of records. -/
def csvParse (s : String) : List (List String) := csvScanAux s.data false false [] []

/-- The fixed instructional header written at the top of the text artifact
(`reupload_metadata` line 183); its two newlines make it the first two lines
of the artifact. -/
def instructionalText : String :=
  "Use this file for all overview questions as you can easily count amount of partners, for getting information about sign dates, penalties, who signed the documents and contracting parties/partners. Example questions: List all partners in bullet points? How many partners we have in database? \n \n"

/-- The body of the text artifact: every parsed CSV row re-joined with plain
commas, one per line (`reupload_metadata` lines 184-185). -/
def txtBody : List (List String) → String
  | [] => ""
  | r :: rs => commaJoin r ++ "\n" ++ txtBody rs

/-- The CSV header row written by `writer.writerow` (lines 162-164). -/
def headerRowCells : List (Option String) :=
  [some "file_name", some "contracting_party", some "valid_to",
   some "signed_date", some "signatory_tatra"]

/-- The data row cells of one metadata record (lines 165-178): the filename
followed by the four projected field values (each a Python `str | None`). -/
def metadataCells (m : String × List FieldRecord) : List (Option String) :=
  [some m.1, (projectFields m.2).contracting_party, (projectFields m.2).valid_to,
   (projectFields m.2).signed_date, (projectFields m.2).signatory_tatra]

/-- The full text artifact produced by `reupload_metadata` for a metadata
mapping: instructional header, then the rewritten rows of the intermediate
CSV file (header row first). -/
def serializeArtifact (metadata : List (String × List FieldRecord)) : String :=
  instructionalText ++
    txtBody (csvParse (csvFileText (headerRowCells :: metadata.map metadataCells)))

/-- Python file-line iteration: maximal chunks ending in a newline (kept), a
final chunk without one included, no empty final chunk. -/
def pyLinesAux : List Char → List Char → List String
  | [], [] => []
  | [], acc => [String.mk acc.reverse]
  | '\n' :: rest, acc => String.mk ('\n' :: acc).reverse :: pyLinesAux rest []
  | c :: rest, acc => pyLinesAux rest (c :: acc)

def pyLines (s : String) : List String := pyLinesAux s.data []

/-- `row[0]` of every record: raises `IndexError` on an empty record (blank
line). -/
def rowFirsts : List (List String) → Except String (List String)
  | [] => .ok []
  | [] :: _ => .error "IndexError: list index out of range"
  | (f :: _) :: rest => (rowFirsts rest).map (f :: ·)

/-- The per-line loop of `check_and_get_new_files` (lines 110-113): each line
is fed to its own `csv.reader` and the first column of every produced row is
collected. -/
def lineFileNames : List String → Except String (List String)
  | [] => .ok []
  | line :: rest =>
    match rowFirsts (csvParse line), lineFileNames rest with
    | .ok fs, .ok more => .ok (fs ++ more)
    | .error e, _ => .error e
    | .ok _, .error e => .error e

/-- Loading the processed-file index (`check_and_get_new_files` lines
101-113): a missing artifact yields the empty index; otherwise the first 3
lines are skipped (`next(f)` raising `StopIteration` when there are fewer)
and the first column of every remaining row is collected into a set. -/
def loadProcessedIndex : Option String → Except String (Finset String)
  | none => .ok ∅
  | some content =>
    let ls := pyLines content
    if ls.length < 3 then .error "StopIteration"
    else (lineFileNames (ls.drop 3)).map List.toFinset

/-- `check_and_get_new_files` (lines 100-127): load the processed index from
the artifact, then select the new `.pdf` files from the directory listing. -/
def check_and_get_new_files (artifact : Option String) (allFiles : Finset String) :
    Except String (Finset String) :=
  (loadProcessedIndex artifact).map fun processed => selectNewFiles allFiles processed

deriving instance DecidableEq for Except

/-- Strings are determined by their character data. -/
lemma string_mk_data (s : String) : String.mk s.data = s := rfl

/-- A string all of whose characters are CSV-safe. -/
def cleanStr (s : String) : Bool := s.data.all fun c => !(csvSpecial c)

/-- A cell that serializes without quoting: absent, or a CSV-safe string. -/
def cleanCell : Option String → Bool
  | none => true
  | some s => cleanStr s

lemma csvField_clean (v : Option String) (h : cleanCell v = true) :
    csvField v = v.getD "" := by
  cases v with
  | none => rfl
  | some s =>
    have hs : (s.data.all fun c => !(csvSpecial c)) = true := h
    have hq : needsQuoting s = false := by
      rw [needsQuoting, ← Bool.not_eq_true, List.any_eq_true]
      rintro ⟨c, hc, hcs⟩
      have hcomp := List.all_eq_true.mp hs c hc
      rw [hcs] at hcomp
      exact absurd hcomp (by decide)
    simp [csvField, hq]

lemma cleanCell_getD (v : Option String) (h : cleanCell v = true) :
    cleanStr (v.getD "") = true := by
  cases v with
  | none => rfl
  | some s => exact h

lemma csvScan_step_plain (c : Char) (rest : List Char) (wasQ : Bool)
    (field : List Char) (record : List String) (h : csvSpecial c = false) :
    csvScanAux (c :: rest) false wasQ field record =
      csvScanAux rest false wasQ (c :: field) record := by
  simp only [csvSpecial, Bool.or_eq_false_iff, decide_eq_false_iff_not] at h
  obtain ⟨⟨⟨h1, h2⟩, h3⟩, h4⟩ := h
  simp [csvScanAux, h1, h2, h3, h4]

lemma csvScan_step_comma (rest : List Char) (wasQ : Bool) (field : List Char)
    (record : List String) :
    csvScanAux (',' :: rest) false wasQ field record =
      csvScanAux rest false false [] (String.mk field.reverse :: record) := by
  simp [csvScanAux]

lemma csvScan_step_crlf (rest : List Char) (wasQ : Bool) (field : List Char)
    (record : List String) :
    csvScanAux ('\r' :: '\n' :: rest) false wasQ field record =
      (if field = [] ∧ record = [] ∧ wasQ = false then []
       else (String.mk field.reverse :: record).reverse) ::
        csvScanAux rest false false [] [] := by
  simp [csvScanAux]

lemma csvScan_step_lf (rest : List Char) (wasQ : Bool) (field : List Char)
    (record : List String) :
    csvScanAux ('\n' :: rest) false wasQ field record =
      (if field = [] ∧ record = [] ∧ wasQ = false then []
       else (String.mk field.reverse :: record).reverse) ::
        csvScanAux rest false false [] [] := by
  simp [csvScanAux]

lemma csvScan_append_plain (cs : List Char) (h : ∀ c ∈ cs, csvSpecial c = false) :
    ∀ (rest : List Char) (wasQ : Bool) (field : List Char) (record : List String),
      csvScanAux (cs ++ rest) false wasQ field record =
        csvScanAux rest false wasQ (cs.reverse ++ field) record := by
  induction cs with
  | nil => intro rest wasQ field record; simp
  | cons c cs ih =>
    intro rest wasQ field record
    rw [List.cons_append,
      csvScan_step_plain c _ wasQ field record (h c (List.mem_cons_self c cs)),
      ih (fun d hd => h d (List.mem_cons_of_mem c hd))]
    simp

lemma commaJoin_data_cons (f g : String) (gs : List String) :
    (commaJoin (f :: g :: gs)).data = f.data ++ ',' :: (commaJoin (g :: gs)).data := by
  rw [show commaJoin (f :: g :: gs) = f ++ "," ++ commaJoin (g :: gs) from rfl,
    String.data_append, String.data_append]
  simp

lemma csvScan_fields (fs : List String) (hne : fs ≠ [])
    (hclean : ∀ f ∈ fs, ∀ c ∈ f.data, csvSpecial c = false) :
    ∀ (record : List String), record ≠ [] →
    ∀ (term rest : List Char),
      (∀ (field : List Char) (rec2 : List String), rec2 ≠ [] →
        csvScanAux term false false field rec2 =
          (String.mk field.reverse :: rec2).reverse :: csvScanAux rest false false [] []) →
      csvScanAux ((commaJoin fs).data ++ term) false false [] record =
        (record.reverse ++ fs) :: csvScanAux rest false false [] [] := by
  induction fs with
  | nil => exact absurd rfl hne
  | cons f fs ih =>
    intro record hrec term rest hterm
    cases fs with
    | nil =>
      rw [show commaJoin [f] = f from rfl,
        csvScan_append_plain f.data (hclean f (by simp)) term false [] record,
        hterm _ _ hrec]
      simp [string_mk_data]
    | cons g gs =>
      rw [commaJoin_data_cons, List.append_assoc, List.cons_append,
        csvScan_append_plain f.data (hclean f (by simp)) _ false [] record,
        csvScan_step_comma]
      simp only [List.append_nil, List.reverse_reverse, string_mk_data]
      rw [ih (by simp) (fun d hd => hclean d (by simp [hd])) (f :: record) (by simp)
        term rest hterm]
      simp

lemma csvScan_term_crlf (rest : List Char) :
    ∀ (field : List Char) (rec2 : List String), rec2 ≠ [] →
      csvScanAux ('\r' :: '\n' :: rest) false false field rec2 =
        (String.mk field.reverse :: rec2).reverse :: csvScanAux rest false false [] [] := by
  intro field rec2 h
  rw [csvScan_step_crlf]
  simp [h]

lemma csvScan_term_lf (rest : List Char) :
    ∀ (field : List Char) (rec2 : List String), rec2 ≠ [] →
      csvScanAux ('\n' :: rest) false false field rec2 =
        (String.mk field.reverse :: rec2).reverse :: csvScanAux rest false false [] [] := by
  intro field rec2 h
  rw [csvScan_step_lf]
  simp [h]

lemma csvScan_row_of_term (fs : List String)
    (hclean : ∀ f ∈ fs, ∀ c ∈ f.data, csvSpecial c = false) (hlen : 2 ≤ fs.length)
    (term rest : List Char)
    (hterm : ∀ (field : List Char) (rec2 : List String), rec2 ≠ [] →
      csvScanAux term false false field rec2 =
        (String.mk field.reverse :: rec2).reverse :: csvScanAux rest false false [] []) :
    csvScanAux ((commaJoin fs).data ++ term) false false [] [] =
      fs :: csvScanAux rest false false [] [] := by
  match fs, hlen with
  | f :: g :: gs, _ =>
    rw [commaJoin_data_cons, List.append_assoc, List.cons_append,
      csvScan_append_plain f.data (hclean f (by simp)) _ false [] [],
      csvScan_step_comma]
    simp only [List.append_nil, List.reverse_reverse, string_mk_data]
    rw [csvScan_fields (g :: gs) (by simp) (fun d hd => hclean d (by simp [hd]))
      [f] (by simp) term rest hterm]
    simp

/-- Character-level form of the CSV file written for a list of already
rendered string rows. -/
def strFileChars : List (List String) → List Char
  | [] => []
  | r :: rs => (commaJoin r).data ++ '\r' :: '\n' :: strFileChars rs

lemma csvScan_strFile (rows : List (List String))
    (hclean : ∀ r ∈ rows, ∀ f ∈ r, ∀ c ∈ f.data, csvSpecial c = false)
    (hlen : ∀ r ∈ rows, 2 ≤ r.length) :
    csvScanAux (strFileChars rows) false false [] [] = rows := by
  induction rows with
  | nil => rfl
  | cons r rs ih =>
    rw [strFileChars,
      csvScan_row_of_term r (hclean r (by simp)) (hlen r (by simp))
        ('\r' :: '\n' :: strFileChars rs) (strFileChars rs) (csvScan_term_crlf _),
      ih (fun d hd => hclean d (by simp [hd])) (fun d hd => hlen d (by simp [hd]))]

lemma csvRowText_clean (cells : List (Option String))
    (h : ∀ c ∈ cells, cleanCell c = true) :
    csvRowText cells = commaJoin (cells.map fun c => c.getD "") ++ "\r\n" := by
  rw [csvRowText, List.map_congr_left fun c hc => csvField_clean c (h c hc)]

lemma csvFileText_chars (rows : List (List (Option String)))
    (h : ∀ r ∈ rows, ∀ c ∈ r, cleanCell c = true) :
    (csvFileText rows).data =
      strFileChars (rows.map fun r => r.map fun c => c.getD "") := by
  induction rows with
  | nil => rfl
  | cons r rs ih =>
    rw [csvFileText, String.data_append, csvRowText_clean r (h r (by simp)),
      String.data_append, ih (fun d hd => h d (by simp [hd])), List.map_cons,
      strFileChars]
    simp

lemma pyLines_step (c : Char) (h : c ≠ '\n') (rest acc : List Char) :
    pyLinesAux (c :: rest) acc = pyLinesAux rest (c :: acc) := by
  simp [pyLinesAux, h]

lemma pyLines_newline (rest acc : List Char) :
    pyLinesAux ('\n' :: rest) acc =
      String.mk ('\n' :: acc).reverse :: pyLinesAux rest [] := by
  simp [pyLinesAux]

lemma pyLines_append_line (xs : List Char) (h : '\n' ∉ xs) :
    ∀ (rest acc : List Char),
      pyLinesAux (xs ++ '\n' :: rest) acc =
        String.mk (acc.reverse ++ xs ++ ['\n']) :: pyLinesAux rest [] := by
  induction xs with
  | nil =>
    intro rest acc
    rw [List.nil_append, pyLines_newline]
    simp
  | cons c cs ih =>
    intro rest acc
    rw [List.cons_append, pyLines_step c (fun hc => h (by simp [hc])) _ acc,
      ih (fun hc => h (List.mem_cons_of_mem c hc)) rest (c :: acc)]
    simp

lemma commaJoin_chars (fs : List String) (c : Char) :
    c ∈ (commaJoin fs).data → c = ',' ∨ ∃ f ∈ fs, c ∈ f.data := by
  induction fs with
  | nil => intro h; exact absurd h (by simp [commaJoin])
  | cons f fs ih =>
    cases fs with
    | nil =>
      intro h
      exact Or.inr ⟨f, by simp, h⟩
    | cons g gs =>
      intro h
      rw [commaJoin_data_cons] at h
      rcases List.mem_append.mp h with h | h
      · exact Or.inr ⟨f, by simp, h⟩
      · rcases List.mem_cons.mp h with rfl | h
        · exact Or.inl rfl
        · rcases ih h with h | ⟨f2, hf2, hc⟩
          · exact Or.inl h
          · exact Or.inr ⟨f2, by simp [hf2], hc⟩

lemma commaJoin_no_newline (fs : List String)
    (h : ∀ f ∈ fs, ∀ c ∈ f.data, csvSpecial c = false) :
    '\n' ∉ (commaJoin fs).data := by
  intro hmem
  rcases commaJoin_chars fs '\n' hmem with hc | ⟨f, hf, hc⟩
  · exact absurd hc (by decide)
  · have := h f hf '\n' hc
    rw [show csvSpecial '\n' = true from by decide] at this
    exact absurd this (by decide)

/-- One physical line of the text artifact: a re-joined row plus its
newline. -/
def bodyLine (r : List String) : String := String.mk ((commaJoin r).data ++ ['\n'])

lemma pyLines_body (rows : List (List String))
    (h : ∀ r ∈ rows, ∀ f ∈ r, ∀ c ∈ f.data, csvSpecial c = false) :
    pyLinesAux (txtBody rows).data [] = rows.map bodyLine := by
  induction rows with
  | nil => rfl
  | cons r rs ih =>
    rw [txtBody, String.data_append, String.data_append]
    rw [show ("\n" : String).data = ['\n'] from rfl, List.append_assoc,
      List.singleton_append,
      pyLines_append_line _ (commaJoin_no_newline r (h r (by simp))) _ [],
      ih (fun d hd => h d (by simp [hd]))]
    simp [bodyLine]

/-- The first physical line of the instructional header, without its
newline. -/
def instrLine1 : String := "Use this file for all overview questions as you can easily count amount of partners, for getting information about sign dates, penalties, who signed the documents and contracting parties/partners. Example questions: List all partners in bullet points? How many partners we have in database? "

set_option maxRecDepth 4000 in
lemma instructionalText_data :
    instructionalText.data = instrLine1.data ++ '\n' :: ' ' :: '\n' :: [] := by decide

lemma lineFileNames_bodyLines (rows : List (List String))
    (hclean : ∀ r ∈ rows, ∀ f ∈ r, ∀ c ∈ f.data, csvSpecial c = false)
    (hlen : ∀ r ∈ rows, 2 ≤ r.length) :
    lineFileNames (rows.map bodyLine) = .ok (rows.map fun r => r.headD "") := by
  induction rows with
  | nil => rfl
  | cons r rs ih =>
    have hparse : csvParse (bodyLine r) = [r] := by
      rw [csvParse, bodyLine]
      rw [show (String.mk ((commaJoin r).data ++ ['\n'])).data =
        (commaJoin r).data ++ '\n' :: [] from rfl]
      rw [csvScan_row_of_term r (hclean r (by simp)) (hlen r (by simp))
        ('\n' :: []) [] (csvScan_term_lf [])]
      rfl
    cases r with
    | nil =>
      have := hlen [] (by simp)
      simp at this
    | cons f rest =>
      rw [List.map_cons]
      rw [show lineFileNames (bodyLine (f :: rest) :: rs.map bodyLine) =
        (match rowFirsts (csvParse (bodyLine (f :: rest))), lineFileNames (rs.map bodyLine) with
         | .ok fs, .ok more => .ok (fs ++ more)
         | .error e, _ => .error e
         | .ok _, .error e => .error e) from rfl]
      rw [hparse, ih (fun d hd => hclean d (by simp [hd])) (fun d hd => hlen d (by simp [hd]))]
      rw [show rowFirsts [f :: rest] = .ok [f] from rfl]
      simp

/-- Claim C6, amended: serializing a metadata mapping to the text artifact and
re-parsing it via the loader reproduces exactly the set of filenames, provided
every cell (filename and projected field values) is free of CSV special
characters (comma, double quote, CR, LF). Without that proviso the rewrite
step of `reupload_metadata` (csv.reader followed by a plain join) strips CSV
quoting and the round-trip fails. -/
theorem C6_roundtrip_clean (metadata : List (String × List FieldRecord))
    (h : ∀ m ∈ metadata, ∀ c ∈ metadataCells m, cleanCell c = true) :
    loadProcessedIndex (some (serializeArtifact metadata)) =
      .ok (metadata.map Prod.fst).toFinset := by
  have hcellClean : ∀ r ∈ headerRowCells :: metadata.map metadataCells,
      ∀ c ∈ r, cleanCell c = true := by
    intro r hr
    rcases List.mem_cons.mp hr with rfl | hr
    · decide
    · rcases List.mem_map.mp hr with ⟨m, hm, rfl⟩
      exact h m hm
  have hstrClean : ∀ r ∈ (headerRowCells :: metadata.map metadataCells).map
        (fun r => r.map fun c => c.getD ""),
      ∀ f ∈ r, ∀ c ∈ f.data, csvSpecial c = false := by
    intro r hr f hf c hc
    rcases List.mem_map.mp hr with ⟨r0, hr0, rfl⟩
    rcases List.mem_map.mp hf with ⟨cell, hcell, rfl⟩
    have h1 : ((cell.getD "").data.all fun d => !(csvSpecial d)) = true :=
      cleanCell_getD cell (hcellClean r0 hr0 cell hcell)
    have h2 := List.all_eq_true.mp h1 c hc
    cases hcs : csvSpecial c
    · rfl
    · rw [hcs] at h2
      exact absurd h2 (by decide)
  have hstrLen : ∀ r ∈ (headerRowCells :: metadata.map metadataCells).map
        (fun r => r.map fun c => c.getD ""), 2 ≤ r.length := by
    intro r hr
    rcases List.mem_map.mp hr with ⟨r0, hr0, rfl⟩
    rw [List.length_map]
    rcases List.mem_cons.mp hr0 with rfl | hr0
    · simp [headerRowCells]
    · rcases List.mem_map.mp hr0 with ⟨m, hm, rfl⟩
      simp [metadataCells]
  have hparse : csvParse (csvFileText (headerRowCells :: metadata.map metadataCells)) =
      (headerRowCells :: metadata.map metadataCells).map
        (fun r => r.map fun c => c.getD "") := by
    rw [csvParse, csvFileText_chars _ hcellClean]
    exact csvScan_strFile _ hstrClean hstrLen
  have hart : serializeArtifact metadata = instructionalText ++
      txtBody ((headerRowCells :: metadata.map metadataCells).map
        (fun r => r.map fun c => c.getD "")) := by
    rw [serializeArtifact, hparse]
  have hlines : pyLines (serializeArtifact metadata) =
      String.mk (instrLine1.data ++ ['\n']) :: " \n" ::
        ((headerRowCells :: metadata.map metadataCells).map
          (fun r => r.map fun c => c.getD "")).map bodyLine := by
    rw [hart, pyLines, String.data_append, instructionalText_data, List.append_assoc]
    simp only [List.cons_append, List.nil_append]
    rw [pyLines_append_line instrLine1.data (by decide) _ []]
    rw [show (' ' :: '\n' ::
        (txtBody ((headerRowCells :: metadata.map metadataCells).map
          (fun r => r.map fun c => c.getD ""))).data) =
      ([' '] ++ '\n' ::
        (txtBody ((headerRowCells :: metadata.map metadataCells).map
          (fun r => r.map fun c => c.getD ""))).data) from rfl,
      pyLines_append_line [' '] (by decide)]
    rw [pyLines_body _ hstrClean]
    simp
  have hLen3 : ¬(pyLines (serializeArtifact metadata)).length < 3 := by
    rw [hlines]
    simp
  rw [show loadProcessedIndex (some (serializeArtifact metadata)) =
      (if (pyLines (serializeArtifact metadata)).length < 3 then .error "StopIteration"
       else (lineFileNames ((pyLines (serializeArtifact metadata)).drop 3)).map
         List.toFinset) from rfl,
    if_neg hLen3, hlines]
  rw [show (String.mk (instrLine1.data ++ ['\n']) :: " \n" ::
      ((headerRowCells :: metadata.map metadataCells).map
        (fun r => r.map fun c => c.getD "")).map bodyLine).drop 3 =
      ((metadata.map metadataCells).map (fun r => r.map fun c => c.getD "")).map bodyLine
    from by simp]
  rw [show ((metadata.map metadataCells).map (fun r => r.map fun c => c.getD "")) =
      metadata.map (fun m => (metadataCells m).map fun c => c.getD "")
    from by rw [List.map_map]; rfl]
  rw [lineFileNames_bodyLines _
    (fun r hr => hstrClean r (by
      rcases List.mem_map.mp hr with ⟨m, hm, rfl⟩
      exact List.mem_map.mpr ⟨metadataCells m,
        List.mem_cons_of_mem _ (List.mem_map.mpr ⟨m, hm, rfl⟩), rfl⟩))
    (fun r hr => hstrLen r (by
      rcases List.mem_map.mp hr with ⟨m, hm, rfl⟩
      exact List.mem_map.mpr ⟨metadataCells m,
        List.mem_cons_of_mem _ (List.mem_map.mpr ⟨m, hm, rfl⟩), rfl⟩))]
  rw [show (metadata.map (fun m => (metadataCells m).map fun c => c.getD "")).map
      (fun r => r.headD "") = metadata.map Prod.fst from by
    rw [List.map_map]
    exact List.map_congr_left fun m _ => by simp [metadataCells]]

  rfl

/-- Claim C6 counterexample: serializing the single record whose filename is
`a,b` and re-loading the artifact yields the index containing `a` — not the
original filename — because the rewrite step of `reupload_metadata` parses the
quoted CSV cell and re-joins it with plain commas, stripping the quoting. -/
theorem C6_counterexample :
    loadProcessedIndex (some (serializeArtifact [("a,b", [])])) = .ok {"a"} ∧
    ("a,b" ∉ ({"a"} : Finset String)) := by
  exact ⟨rfl, by decide⟩

/-- Witness for C6_roundtrip_clean at a concrete one-record mapping. -/
theorem C6_roundtrip_clean_witness :
    loadProcessedIndex (some (serializeArtifact [("a.pdf", [])])) =
      .ok ([("a.pdf", ([] : List FieldRecord))].map Prod.fst).toFinset :=
  C6_roundtrip_clean [("a.pdf", [])] (by decide)

/-- Claim C7 counterexample: the claim states `selectNewFiles(F, ∅) = F` for
every file set `F`, but the selection filters to `.pdf` files first, so a
listing containing a non-pdf file is not returned in full. -/
theorem C7_counterexample :
    selectNewFiles {"notes.txt"} ∅ = ∅ ∧ ({"notes.txt"} : Finset String) ≠ ∅ := by
  decide

/-- Claim C7, amended: for file sets consisting of `.pdf` filenames the
selection against an empty processed index returns the whole set, and for
every file set the selection against itself is empty (the selection is the
set difference taken after the `.pdf` filter). -/
theorem C7_amended (F : Finset String) (h : ∀ f ∈ F, endswith f ".pdf" = true) :
    selectNewFiles F ∅ = F ∧ ∀ G : Finset String, selectNewFiles G G = ∅ := by
  constructor
  · rw [selectNewFiles, Finset.sdiff_empty, Finset.filter_eq_self]
    exact h
  · intro G
    rw [selectNewFiles]
    exact Finset.sdiff_eq_empty_iff_subset.mpr (Finset.filter_subset _ _)

/-- Witness for C7_amended at a concrete all-pdf file set. -/
theorem C7_amended_witness :
    selectNewFiles {"a.pdf"} ∅ = {"a.pdf"} ∧
    ∀ G : Finset String, selectNewFiles G G = ∅ :=
  C7_amended {"a.pdf"} (by decide)

/-- Claim C10: every filename returned by `check_and_get_new_files` ends in
`.pdf`; non-pdf entries are removed from the candidate set before the set
difference with the processed index. -/
theorem C10_only_pdf_selected (artifact : Option String) (allFiles nf : Finset String)
    (f : String) (h1 : check_and_get_new_files artifact allFiles = .ok nf)
    (h2 : f ∈ nf) : endswith f ".pdf" = true := by
  rw [check_and_get_new_files] at h1
  cases hload : loadProcessedIndex artifact with
  | error e =>
    rw [hload] at h1
    exact absurd h1 (by simp [Except.map])
  | ok processed =>
    rw [hload] at h1
    simp only [Except.map] at h1
    have hnf : selectNewFiles allFiles processed = nf := by
      cases h1
      rfl
    rw [← hnf, selectNewFiles] at h2
    exact (Finset.mem_filter.mp (Finset.mem_sdiff.mp h2).1).2

/-- Witness for C10 at a listing containing a pdf and a non-pdf file. -/
theorem C10_only_pdf_selected_witness : endswith "a.pdf" ".pdf" = true :=
  C10_only_pdf_selected none {"a.pdf", "b.txt"}
    (selectNewFiles {"a.pdf", "b.txt"} ∅) "a.pdf" rfl (by decide)
